import Mathlib

/-!
Verification of the account-registry core of the cosmos-sdk `x/auth` keeper
(`x/auth/keeper/keeper.go`) and of the group-module Pulsar conversions
(`x/group/orm.go`), against the natural-language specification.

The keeper's store is modelled as an association-list key-value store holding
encoded byte streams (`List Nat` tokens).  Machine integers (`uint64`) are
modelled as `Nat` with explicit `% 2^64` where Go overflow applies.  A Go
`panic` is modelled as `Option.none` at the outermost result.
-/

namespace CosmosAuth

/-- Addresses: a module account's address is deterministically derived from its
module name (`types.NewModuleAddress`, modelled as the injective constructor
`ofModule`); all other addresses are opaque (`user`). -/
inductive Address where
  | ofModule (name : String)
  | user (id : Nat)
deriving DecidableEq, Repr

/-- Base account record: address, optional public key, account number,
sequence number (`x/auth/types.BaseAccount`). -/
structure BaseAccount where
  address : Address
  pubKey : Option Nat
  accountNumber : Nat
  sequence : Nat
deriving DecidableEq, Repr

/-- Module account record: a base account plus module name and permission list
(`x/auth/types.ModuleAccount`). -/
structure ModuleAccount where
  base : BaseAccount
  name : String
  permissions : List String
deriving DecidableEq, Repr

/-- The polymorphic account variant (`types.AccountI`): base account or module
account. -/
inductive Account where
  | base (a : BaseAccount)
  | moduleAcc (m : ModuleAccount)
deriving DecidableEq, Repr

def Account.address : Account → Address
  | .base a => a.address
  | .moduleAcc m => m.base.address

def Account.accountNumber : Account → Nat
  | .base a => a.accountNumber
  | .moduleAcc m => m.base.accountNumber

def Account.getSequence : Account → Nat
  | .base a => a.sequence
  | .moduleAcc m => m.base.sequence

def Account.getPubKey : Account → Option Nat
  | .base a => a.pubKey
  | .moduleAcc m => m.base.pubKey

/-! ## Account codec

Modelled from the spec: the wire codec (`codec.BinaryCodec`,
`MarshalInterface` / `UnmarshalInterface`) is repository code outside the
sources under inspection.  The spec describes it as "a tagged binary encoding
identifying the concrete variant plus its fields"; we realise it as a
self-describing token-stream envelope with a variant tag followed by the
fields, and consuming decoders. -/

def encodeString (s : String) : List Nat :=
  s.length :: s.data.map Char.toNat

def decodeString : List Nat → Option (String × List Nat)
  | [] => none
  | n :: rest =>
    if n ≤ rest.length then
      some (String.mk ((rest.take n).map Char.ofNat), rest.drop n)
    else none

def encodeOptNat : Option Nat → List Nat
  | none => [0]
  | some k => [1, k]

def decodeOptNat : List Nat → Option (Option Nat × List Nat)
  | 0 :: rest => some (none, rest)
  | 1 :: k :: rest => some (some k, rest)
  | _ => none

def encodeAddress : Address → List Nat
  | .ofModule name => 0 :: encodeString name
  | .user id => [1, id]

def decodeAddress : List Nat → Option (Address × List Nat)
  | 0 :: rest => (decodeString rest).map (fun p => (Address.ofModule p.1, p.2))
  | 1 :: id :: rest => some (Address.user id, rest)
  | _ => none

def encodeBase (a : BaseAccount) : List Nat :=
  encodeAddress a.address ++ encodeOptNat a.pubKey ++ [a.accountNumber, a.sequence]

def decodeBase (bz : List Nat) : Option (BaseAccount × List Nat) := do
  let (addr, r1) ← decodeAddress bz
  let (pk, r2) ← decodeOptNat r1
  match r2 with
  | num :: seq :: r3 => pure (⟨addr, pk, num, seq⟩, r3)
  | _ => none

def encodeStrings (ss : List String) : List Nat :=
  ss.length :: (ss.map encodeString).flatten

def decodeStringsAux : Nat → List Nat → Option (List String × List Nat)
  | 0, rest => some ([], rest)
  | n + 1, rest => do
    let (s, r1) ← decodeString rest
    let (ss, r2) ← decodeStringsAux n r1
    pure (s :: ss, r2)

def decodeStrings : List Nat → Option (List String × List Nat)
  | [] => none
  | n :: rest => decodeStringsAux n rest

def encodeAccount : Account → List Nat
  | .base a => 0 :: encodeBase a
  | .moduleAcc m => 1 :: (encodeBase m.base ++ encodeString m.name ++ encodeStrings m.permissions)

def decodeAccountBytes : List Nat → Option (Account × List Nat)
  | 0 :: rest => (decodeBase rest).map (fun p => (Account.base p.1, p.2))
  | 1 :: rest => do
    let (b, r1) ← decodeBase rest
    let (nm, r2) ← decodeString r1
    let (ps, r3) ← decodeStrings r2
    pure (Account.moduleAcc ⟨b, nm, ps⟩, r3)
  | _ => none

/-- `MarshalAccount`: serialize an account interface value. -/
def marshalAccount (acc : Account) : List Nat :=
  encodeAccount acc

/-- `UnmarshalAccount`: decode an account from raw bytes; fails (`none`) on
unrecognized or trailing data. -/
def unmarshalAccount (bz : List Nat) : Option Account :=
  match decodeAccountBytes bz with
  | some (acc, []) => some acc
  | _ => none

/-! ### Codec round-trip lemmas -/

theorem decodeString_encodeString (s : String) (r : List Nat) :
    decodeString (encodeString s ++ r) = some (s, r) := by
  have hlen : (s.data.map Char.toNat).length = s.length := by
    rw [List.length_map]; rfl
  simp only [encodeString, decodeString, List.cons_append]
  rw [if_pos (by rw [List.length_append, hlen]; omega)]
  have htake : ((s.data.map Char.toNat) ++ r).take s.length = s.data.map Char.toNat := by
    rw [← hlen, List.take_left]
  have hdrop : ((s.data.map Char.toNat) ++ r).drop s.length = r := by
    rw [← hlen, List.drop_left]
  rw [htake, hdrop, List.map_map]
  have hid : (Char.ofNat ∘ Char.toNat) = id := by
    funext c
    simp [Function.comp, Char.ofNat_toNat]
  rw [hid, List.map_id]

theorem decodeOptNat_encodeOptNat (o : Option Nat) (r : List Nat) :
    decodeOptNat (encodeOptNat o ++ r) = some (o, r) := by
  cases o <;> simp [encodeOptNat, decodeOptNat]

theorem decodeAddress_encodeAddress (a : Address) (r : List Nat) :
    decodeAddress (encodeAddress a ++ r) = some (a, r) := by
  cases a with
  | ofModule name =>
    simp [encodeAddress, decodeAddress, decodeString_encodeString]
  | user id =>
    simp [encodeAddress, decodeAddress]

theorem decodeBase_encodeBase (a : BaseAccount) (r : List Nat) :
    decodeBase (encodeBase a ++ r) = some (a, r) := by
  simp only [encodeBase, decodeBase, List.append_assoc, List.cons_append]
  rw [decodeAddress_encodeAddress]
  simp only [Option.bind_eq_bind, Option.some_bind]
  rw [decodeOptNat_encodeOptNat]
  simp

theorem decodeStringsAux_encode (ss : List String) (r : List Nat) :
    decodeStringsAux ss.length ((ss.map encodeString).flatten ++ r) = some (ss, r) := by
  induction ss with
  | nil => simp [decodeStringsAux]
  | cons s tail ih =>
    simp only [List.map_cons, List.flatten_cons, List.length_cons, List.append_assoc]
    simp only [decodeStringsAux, decodeString_encodeString, Option.bind_eq_bind,
      Option.some_bind, ih]
    rfl

theorem decodeStrings_encodeStrings (ss : List String) (r : List Nat) :
    decodeStrings (encodeStrings ss ++ r) = some (ss, r) := by
  simp only [encodeStrings, List.cons_append, decodeStrings]
  exact decodeStringsAux_encode ss r

theorem decodeAccountBytes_encodeAccount (acc : Account) (r : List Nat) :
    decodeAccountBytes (encodeAccount acc ++ r) = some (acc, r) := by
  cases acc with
  | base a =>
    simp [encodeAccount, decodeAccountBytes, decodeBase_encodeBase]
  | moduleAcc m =>
    simp only [encodeAccount, decodeAccountBytes, List.cons_append, List.append_assoc]
    rw [decodeBase_encodeBase]
    simp only [Option.bind_eq_bind, Option.some_bind]
    rw [decodeString_encodeString]
    simp only [Option.some_bind]
    rw [decodeStrings_encodeStrings]
    simp

theorem unmarshal_marshal_eq (acc : Account) :
    unmarshalAccount (marshalAccount acc) = some acc := by
  have h := decodeAccountBytes_encodeAccount acc []
  rw [List.append_nil] at h
  simp [unmarshalAccount, marshalAccount, h]

/-! ## Counter codec

The global account-number counter is stored as an encoded
`gogotypes.UInt64Value`; decoding yields a value `< 2^64` or fails. -/

def encodeU64 (n : Nat) : List Nat := [n]

def decodeU64 : List Nat → Option Nat
  | [n] => if n < 2 ^ 64 then some n else none
  | _ => none

/-! ## Key-value store

The ordered key-value store is modelled as association lists; the keeper's
stored values are encoded byte streams. -/

def alistGet {α β : Type} [DecidableEq α] : List (α × β) → α → Option β
  | [], _ => none
  | (k, v) :: t, a => if k = a then some v else alistGet t a

def alistSet {α β : Type} [DecidableEq α] : List (α × β) → α → β → List (α × β)
  | [], a, v => [(a, v)]
  | (k, w) :: t, a, v => if k = a then (a, v) :: t else (k, w) :: alistSet t a v

theorem alistGet_alistSet_same {α β : Type} [DecidableEq α]
    (l : List (α × β)) (a : α) (v : β) : alistGet (alistSet l a v) a = some v := by
  induction l with
  | nil => simp [alistGet, alistSet]
  | cons h t ih =>
    obtain ⟨k, w⟩ := h
    by_cases hk : k = a
    · simp [alistGet, alistSet, hk]
    · simp [alistGet, alistSet, hk, ih]

/-- The keeper's store: the global counter slot (`types.GlobalAccountNumberKey`),
the primary address-to-record map, and the secondary number-to-address index. -/
structure Store where
  counter : Option (List Nat)
  accounts : List (Address × List Nat)
  byNumber : List (Nat × Address)
deriving DecidableEq, Repr

def emptyStore : Store := ⟨none, [], []⟩

/-! ## Permission table and keeper -/

/-- `types.PermissionsForAddress`: a module's permission list together with its
derived address. -/
structure PermissionsForAddress where
  permissions : List String
  address : Address
deriving DecidableEq, Repr

/-- Modelled from the spec: `types.NewPermissionsForAddress` (outside the
inspected sources) stores the given permissions and the address derived
one-way from the module name. -/
def NewPermissionsForAddress (name : String) (perms : List String) :
    PermissionsForAddress :=
  ⟨perms, Address.ofModule name⟩

def PermissionsForAddress.HasPermission (pa : PermissionsForAddress)
    (perm : String) : Bool :=
  pa.permissions.contains perm

/-- The account keeper's immutable construction-time state: the permission
table mapping module names to `PermissionsForAddress`. -/
structure Keeper where
  permAddrs : List (String × PermissionsForAddress)
deriving DecidableEq, Repr

/-- `NewAccountKeeper`: builds the permission table from the `maccPerms`
configuration. -/
def NewAccountKeeper (maccPerms : List (String × List String)) : Keeper :=
  ⟨maccPerms.map (fun p => (p.1, NewPermissionsForAddress p.1 p.2))⟩

/-- Go map access `ak.permAddrs[name]` yields the zero value (empty
permissions, nil address modelled as an arbitrary fixed address) when `name`
is absent. -/
def Keeper.permAddrsGet (k : Keeper) (name : String) : PermissionsForAddress :=
  match alistGet k.permAddrs name with
  | some pa => pa
  | none => ⟨[], Address.user 0⟩

/-! ## Keeper operations (from `x/auth/keeper/keeper.go`) -/

/-- `GetNextAccountNumber`: read the stored counter (absent counter is zero),
persist counter+1 (with `uint64` wraparound), return the read value.  `none`
models the panic on counter decode failure. -/
def GetNextAccountNumber (s : Store) : Option (Nat × Store) :=
  match (match s.counter with
         | none => some 0
         | some bz => decodeU64 bz : Option Nat) with
  | none => none
  | some accNumber =>
    some (accNumber,
      { s with counter := some (encodeU64 ((accNumber + 1) % 2 ^ 64)) })

/-- `ValidatePermissions`: every permission of the module account must be in
its module's declared set; returns the first invalid permission as the error
(`none` = success). -/
def ValidatePermissions (k : Keeper) (macc : ModuleAccount) : Option String :=
  macc.permissions.find? (fun perm => !(k.permAddrsGet macc.name).HasPermission perm)

/-- `GetModuleAddress`: the module's derived address, or `none` (Go `nil`)
for an unknown module. -/
def GetModuleAddress (k : Keeper) (moduleName : String) : Option Address :=
  match alistGet k.permAddrs moduleName with
  | none => none
  | some pa => some pa.address

/-- `GetModuleAddressAndPermissions`: address and permissions of the module,
or `(none, [])` (Go `nil, nil`) for an unknown module. -/
def GetModuleAddressAndPermissions (k : Keeper) (moduleName : String) :
    Option Address × List String :=
  match alistGet k.permAddrs moduleName with
  | none => (none, [])
  | some pa => (some pa.address, pa.permissions)

/-- Modelled from the spec: the store's `get(address)` (the keeper's
`GetAccount`, outside the inspected sources) returns the decoded record or
"not found"; decode errors are fatal (outer `none` = panic). -/
def GetAccount (s : Store) (addr : Address) : Option (Option Account) :=
  match alistGet s.accounts addr with
  | none => some none
  | some bz =>
    match unmarshalAccount bz with
    | none => none
    | some acc => some (some acc)

/-- Modelled from the spec: the store's `put(record)` (the keeper's
`SetAccount`, outside the inspected sources) encodes and writes the primary
entry keyed by address and refreshes the secondary number-to-address index. -/
def SetAccount (s : Store) (acc : Account) : Store :=
  { s with
    accounts := alistSet s.accounts acc.address (marshalAccount acc),
    byNumber := alistSet s.byNumber acc.accountNumber acc.address }

/-- Overwrite an account's number, keeping every other field. -/
def Account.withNumber : Account → Nat → Account
  | .base a, n => .base { a with accountNumber := n }
  | .moduleAcc m, n => .moduleAcc { m with base := { m.base with accountNumber := n } }

/-- Modelled from the spec: `newAccount(prototypeRecord)` (the keeper's
`NewAccount`, outside the inspected sources) preserves the caller-supplied
variant and fields, overwriting only the number with a freshly allocated
one; does not persist. -/
def NewAccount (s : Store) (acc : Account) : Option (Account × Store) :=
  match GetNextAccountNumber s with
  | none => none
  | some (n, s1) => some (acc.withNumber n, s1)

/-- Modelled from the spec: `types.NewEmptyModuleAccount` (outside the
inspected sources) builds an unsaved module account at the module's derived
address with the given permissions. -/
def NewEmptyModuleAccount (name : String) (perms : List String) : ModuleAccount :=
  ⟨⟨Address.ofModule name, none, 0, 0⟩, name, perms⟩

/-- `SetModuleAccount`: thin pass-through to `SetAccount`. -/
def SetModuleAccount (s : Store) (macc : ModuleAccount) : Store :=
  SetAccount s (.moduleAcc macc)

/-- `GetModuleAccountAndPermissions`: result is `none` on panic (decode
failure, or a non-module account stored at the module's address); otherwise
`some (macc?, permissions, store)` where `macc? = none` for an unknown
module. -/
def GetModuleAccountAndPermissions (k : Keeper) (s : Store) (moduleName : String) :
    Option (Option ModuleAccount × List String × Store) :=
  match GetModuleAddressAndPermissions k moduleName with
  | (none, _) => some (none, [], s)
  | (some addr, perms) =>
    match GetAccount s addr with
    | none => none
    | some (some (.moduleAcc macc)) => some (some macc, perms, s)
    | some (some (.base _)) => none
    | some none =>
      match NewAccount s (.moduleAcc (NewEmptyModuleAccount moduleName perms)) with
      | none => none
      | some (.moduleAcc m, s1) => some (some m, perms, SetModuleAccount s1 m)
      | some (.base _, _) => none

/-- `GetModuleAccount`: `GetModuleAccountAndPermissions` with the permissions
discarded. -/
def GetModuleAccount (k : Keeper) (s : Store) (moduleName : String) :
    Option (Option ModuleAccount × Store) :=
  match GetModuleAccountAndPermissions k s moduleName with
  | none => none
  | some (macc, _, s1) => some (macc, s1)

/-- The keeper's typed recoverable errors. -/
inductive KeeperError where
  | unknownAddress (addr : Address)
deriving DecidableEq, Repr

/-- `GetPubKey`: the public key of the account at the address, or an
unknown-address error when no account is stored there. -/
def GetPubKey (s : Store) (addr : Address) :
    Option (Except KeeperError (Option Nat)) :=
  match GetAccount s addr with
  | none => none
  | some none => some (.error (.unknownAddress addr))
  | some (some acc) => some (.ok acc.getPubKey)

/-- `GetSequence`: the sequence number of the account at the address, or an
unknown-address error when no account is stored there. -/
def GetSequence (s : Store) (addr : Address) :
    Option (Except KeeperError Nat) :=
  match GetAccount s addr with
  | none => none
  | some none => some (.error (.unknownAddress addr))
  | some (some acc) => some (.ok acc.getSequence)

/-- Run `GetNextAccountNumber` `n` times, collecting the issued numbers in
order. -/
def allocN : Nat → Store → Option (List Nat × Store)
  | 0, s => some ([], s)
  | n + 1, s =>
    match GetNextAccountNumber s with
    | none => none
    | some (v, s1) =>
      match allocN n s1 with
      | none => none
      | some (vs, s2) => some (v :: vs, s2)

/-! ## Characterization lemmas -/

theorem alistGet_mapped (mp : List (String × List String)) (name : String) :
    alistGet (NewAccountKeeper mp).permAddrs name =
      (alistGet mp name).map (NewPermissionsForAddress name) := by
  induction mp with
  | nil => rfl
  | cons hd t ih =>
    obtain ⟨k, v⟩ := hd
    by_cases hk : k = name
    · subst hk
      simp [NewAccountKeeper, alistGet]
    · simp only [NewAccountKeeper, List.map_cons, alistGet, hk, if_false, if_neg hk] at ih ⊢
      exact ih

theorem permAddrsGet_permissions (mp : List (String × List String)) (name : String) :
    ((NewAccountKeeper mp).permAddrsGet name).permissions =
      (alistGet mp name).getD [] := by
  rw [Keeper.permAddrsGet, alistGet_mapped]
  cases alistGet mp name <;> simp [NewPermissionsForAddress]

theorem getNextAccountNumber_none (s : Store) (h : s.counter = none) :
    GetNextAccountNumber s = some (0, { s with counter := some (encodeU64 1) }) := by
  have h1 : (0 + 1) % 2 ^ 64 = 1 := Nat.mod_eq_of_lt (by norm_num)
  simp [GetNextAccountNumber, h, h1]

theorem getNextAccountNumber_some (s : Store) (c : Nat) (hc : c < 2 ^ 64)
    (h : s.counter = some (encodeU64 c)) :
    GetNextAccountNumber s =
      some (c, { s with counter := some (encodeU64 ((c + 1) % 2 ^ 64)) }) := by
  have hc2 : c < 18446744073709551616 := by omega
  simp [GetNextAccountNumber, h, encodeU64, decodeU64, hc2]

theorem getAccount_setAccount_same (s : Store) (acc : Account) :
    GetAccount (SetAccount s acc) acc.address = some (some acc) := by
  simp [GetAccount, SetAccount, alistGet_alistSet_same, unmarshal_marshal_eq]

theorem gmap_unknown (mp : List (String × List String)) (s : Store) (name : String)
    (h : alistGet mp name = none) :
    GetModuleAccountAndPermissions (NewAccountKeeper mp) s name = some (none, [], s) := by
  simp [GetModuleAccountAndPermissions, GetModuleAddressAndPermissions, alistGet_mapped, h]

theorem gmap_decode_panic (mp : List (String × List String)) (s : Store) (name : String)
    (perms : List String) (h : alistGet mp name = some perms)
    (hget : GetAccount s (Address.ofModule name) = none) :
    GetModuleAccountAndPermissions (NewAccountKeeper mp) s name = none := by
  simp [GetModuleAccountAndPermissions, GetModuleAddressAndPermissions, alistGet_mapped, h,
    NewPermissionsForAddress, hget]

theorem gmap_found (mp : List (String × List String)) (s : Store) (name : String)
    (perms : List String) (macc : ModuleAccount) (h : alistGet mp name = some perms)
    (hget : GetAccount s (Address.ofModule name) = some (some (.moduleAcc macc))) :
    GetModuleAccountAndPermissions (NewAccountKeeper mp) s name =
      some (some macc, perms, s) := by
  simp [GetModuleAccountAndPermissions, GetModuleAddressAndPermissions, alistGet_mapped, h,
    NewPermissionsForAddress, hget]

theorem gmap_base_panic (mp : List (String × List String)) (s : Store) (name : String)
    (perms : List String) (b : BaseAccount) (h : alistGet mp name = some perms)
    (hget : GetAccount s (Address.ofModule name) = some (some (.base b))) :
    GetModuleAccountAndPermissions (NewAccountKeeper mp) s name = none := by
  simp [GetModuleAccountAndPermissions, GetModuleAddressAndPermissions, alistGet_mapped, h,
    NewPermissionsForAddress, hget]

theorem gmap_create (mp : List (String × List String)) (s : Store) (name : String)
    (perms : List String) (n : Nat) (s1 : Store) (h : alistGet mp name = some perms)
    (hget : GetAccount s (Address.ofModule name) = some none)
    (hn : GetNextAccountNumber s = some (n, s1)) :
    GetModuleAccountAndPermissions (NewAccountKeeper mp) s name =
      some (some ⟨⟨Address.ofModule name, none, n, 0⟩, name, perms⟩, perms,
        SetModuleAccount s1 ⟨⟨Address.ofModule name, none, n, 0⟩, name, perms⟩) := by
  simp [GetModuleAccountAndPermissions, GetModuleAddressAndPermissions, alistGet_mapped, h,
    NewPermissionsForAddress, hget, NewAccount, hn, NewEmptyModuleAccount, Account.withNumber]

theorem range_map_add (c n : Nat) :
    (List.range (n + 1)).map (fun i => c + i) =
      c :: (List.range n).map (fun i => c + 1 + i) := by
  rw [List.range_succ_eq_map, List.map_cons, List.map_map]
  have h2 : ((fun i => c + i) ∘ Nat.succ) = (fun i => c + 1 + i) := by
    funext i
    simp [Function.comp]
    omega
  rw [h2]
  norm_num

theorem allocN_succ_step (n : Nat) (s : Store) (v : Nat) (s1 : Store)
    (h : GetNextAccountNumber s = some (v, s1)) :
    allocN (n + 1) s =
      match allocN n s1 with
      | none => none
      | some (vs, s2) => some (v :: vs, s2) := by
  simp [allocN, h]

theorem allocN_from_counter (n : Nat) :
    ∀ (c : Nat) (s : Store), s.counter = some (encodeU64 c) → c + n ≤ 2 ^ 64 →
      ∃ s2 : Store, allocN n s = some ((List.range n).map (fun i => c + i), s2) := by
  induction n with
  | zero =>
    intro c s _ _
    exact ⟨s, rfl⟩
  | succ m ih =>
    intro c s hs hle
    have hc : c < 2 ^ 64 := by omega
    have hstep := getNextAccountNumber_some s c hc hs
    cases m with
    | zero =>
      refine ⟨{ s with counter := some (encodeU64 ((c + 1) % 2 ^ 64)) }, ?_⟩
      rw [allocN_succ_step 0 s c _ hstep]
      simp [allocN, List.range_succ]
    | succ m2 =>
      have hc1 : (c + 1) % 2 ^ 64 = c + 1 := Nat.mod_eq_of_lt (by omega)
      obtain ⟨s2, h2⟩ := ih (c + 1)
        { s with counter := some (encodeU64 ((c + 1) % 2 ^ 64)) }
        (by rw [hc1]) (by omega)
      refine ⟨s2, ?_⟩
      rw [range_map_add]
      rw [allocN_succ_step (m2 + 1) s c _ hstep, h2]

theorem allocN_emptyStore (N : Nat) (h : N ≤ 2 ^ 64) :
    ∃ s2 : Store, allocN N emptyStore = some (List.range N, s2) := by
  cases N with
  | zero => exact ⟨emptyStore, rfl⟩
  | succ m =>
    have hfirst := getNextAccountNumber_none emptyStore rfl
    obtain ⟨s2, h2⟩ := allocN_from_counter m 1
      { emptyStore with counter := some (encodeU64 1) } rfl (by omega)
    refine ⟨s2, ?_⟩
    have hr : List.range (m + 1) = 0 :: (List.range m).map (fun i => 1 + i) := by
      rw [List.range_succ_eq_map]
      congr 1
      apply List.map_congr_left
      intro a _
      omega
    rw [hr]
    rw [allocN_succ_step m emptyStore 0 _ hfirst, h2]

theorem gmap_alloc_panic (mp : List (String × List String)) (s : Store) (name : String)
    (perms : List String) (h : alistGet mp name = some perms)
    (hget : GetAccount s (Address.ofModule name) = some none)
    (hn : GetNextAccountNumber s = none) :
    GetModuleAccountAndPermissions (NewAccountKeeper mp) s name = none := by
  simp [GetModuleAccountAndPermissions, GetModuleAddressAndPermissions, alistGet_mapped, h,
    NewPermissionsForAddress, hget, NewAccount, hn]

/-! ## Claims -/

/-- C1: `GetNextAccountNumber` reads the stored global counter (treating an
absent counter as zero), returns that value, and persists counter+1 (with
`uint64` wraparound); consequently, for any sequence of `N` allocation calls
(`N` within the `uint64` range) starting from a store with no counter, the
returned numbers are exactly `0, 1, …, N-1` in issuance order, with no
repeats. -/
theorem GetNextAccountNumber_sequential :
    (∀ s : Store, s.counter = none →
        GetNextAccountNumber s = some (0, { s with counter := some (encodeU64 1) }))
  ∧ (∀ (s : Store) (c : Nat), c < 2 ^ 64 → s.counter = some (encodeU64 c) →
        GetNextAccountNumber s =
          some (c, { s with counter := some (encodeU64 ((c + 1) % 2 ^ 64)) }))
  ∧ (∀ N : Nat, N ≤ 2 ^ 64 →
        ∃ s2 : Store, allocN N emptyStore = some (List.range N, s2) ∧
          (List.range N).Nodup) := by
  refine ⟨getNextAccountNumber_none, getNextAccountNumber_some, ?_⟩
  intro N hN
  obtain ⟨s2, h2⟩ := allocN_emptyStore N hN
  exact ⟨s2, h2, List.nodup_range N⟩

/-- Witness to C1 at concrete inputs. -/
theorem GetNextAccountNumber_sequential_witness :
    (GetNextAccountNumber emptyStore =
        some (0, { emptyStore with counter := some (encodeU64 1) }))
  ∧ (GetNextAccountNumber ⟨some (encodeU64 5), [], []⟩ =
        some (5, { (⟨some (encodeU64 5), [], []⟩ : Store) with
          counter := some (encodeU64 ((5 + 1) % 2 ^ 64)) }))
  ∧ (∃ s2 : Store, allocN 3 emptyStore = some (List.range 3, s2) ∧
        (List.range 3).Nodup) :=
  ⟨GetNextAccountNumber_sequential.1 emptyStore rfl,
   GetNextAccountNumber_sequential.2.1 ⟨some (encodeU64 5), [], []⟩ 5 (by norm_num) rfl,
   GetNextAccountNumber_sequential.2.2 3 (by norm_num)⟩

/-- C2: for a configured module name, a stored account at the module's derived
address that is not of the module-account variant makes the operation panic;
when no account is stored there, a module account carrying exactly the
declared permissions is created with the next account number, persisted, and
returned. -/
theorem GetModuleAccount_configured_spec (mp : List (String × List String))
    (s : Store) (name : String) (perms : List String)
    (hlk : alistGet mp name = some perms) :
    (∀ b : BaseAccount,
        GetAccount s (Address.ofModule name) = some (some (.base b)) →
          GetModuleAccountAndPermissions (NewAccountKeeper mp) s name = none ∧
          GetModuleAccount (NewAccountKeeper mp) s name = none)
  ∧ (∀ (n : Nat) (s1 : Store),
        GetAccount s (Address.ofModule name) = some none →
        GetNextAccountNumber s = some (n, s1) →
        ∃ (m : ModuleAccount) (s2 : Store),
          GetModuleAccountAndPermissions (NewAccountKeeper mp) s name =
            some (some m, perms, s2) ∧
          m.name = name ∧ m.permissions = perms ∧
          m.base.accountNumber = n ∧ m.base.address = Address.ofModule name ∧
          GetAccount s2 (Address.ofModule name) = some (some (.moduleAcc m))) := by
  constructor
  · intro b hb
    have h1 := gmap_base_panic mp s name perms b hlk hb
    exact ⟨h1, by simp [GetModuleAccount, h1]⟩
  · intro n s1 hget hn
    refine ⟨⟨⟨Address.ofModule name, none, n, 0⟩, name, perms⟩,
      SetModuleAccount s1 ⟨⟨Address.ofModule name, none, n, 0⟩, name, perms⟩,
      gmap_create mp s name perms n s1 hlk hget hn, rfl, rfl, rfl, rfl, ?_⟩
    have h2 := getAccount_setAccount_same s1
      (.moduleAcc ⟨⟨Address.ofModule name, none, n, 0⟩, name, perms⟩)
    simpa [SetModuleAccount, Account.address] using h2

/-- Witness to C2 at concrete inputs. -/
theorem GetModuleAccount_configured_spec_witness :
    (GetModuleAccountAndPermissions (NewAccountKeeper [("m", ["burner"])])
        (SetAccount emptyStore (.base ⟨.ofModule "m", none, 7, 0⟩)) "m" = none ∧
     GetModuleAccount (NewAccountKeeper [("m", ["burner"])])
        (SetAccount emptyStore (.base ⟨.ofModule "m", none, 7, 0⟩)) "m" = none)
  ∧ (∃ (m : ModuleAccount) (s2 : Store),
       GetModuleAccountAndPermissions (NewAccountKeeper [("m", ["burner"])])
          emptyStore "m" = some (some m, ["burner"], s2) ∧
       m.name = "m" ∧ m.permissions = ["burner"] ∧
       m.base.accountNumber = 0 ∧ m.base.address = Address.ofModule "m" ∧
       GetAccount s2 (Address.ofModule "m") = some (some (.moduleAcc m))) :=
  ⟨(GetModuleAccount_configured_spec [("m", ["burner"])]
      (SetAccount emptyStore (.base ⟨.ofModule "m", none, 7, 0⟩)) "m" ["burner"] rfl).1
      ⟨.ofModule "m", none, 7, 0⟩ (by decide),
   (GetModuleAccount_configured_spec [("m", ["burner"])] emptyStore "m" ["burner"] rfl).2
      0 ⟨some (encodeU64 1), [], []⟩ rfl rfl⟩

/-- C3: `ValidatePermissions` succeeds iff every permission in the account's
permission list is declared for the account's module name in the permission
table built at construction; any undeclared claimed permission yields an
invalid-permission error. -/
theorem ValidatePermissions_iff_declared (mp : List (String × List String))
    (macc : ModuleAccount) :
    (ValidatePermissions (NewAccountKeeper mp) macc = none ↔
        ∀ p ∈ macc.permissions, p ∈ (alistGet mp macc.name).getD [])
  ∧ (∀ p ∈ macc.permissions, p ∉ (alistGet mp macc.name).getD [] →
        (ValidatePermissions (NewAccountKeeper mp) macc).isSome = true) := by
  have hperm : ∀ p : String,
      (((NewAccountKeeper mp).permAddrsGet macc.name).HasPermission p = true) ↔
        p ∈ (alistGet mp macc.name).getD [] := by
    intro p
    rw [PermissionsForAddress.HasPermission, permAddrsGet_permissions]
    simp
  have key : ValidatePermissions (NewAccountKeeper mp) macc = none ↔
      ∀ p ∈ macc.permissions, p ∈ (alistGet mp macc.name).getD [] := by
    rw [ValidatePermissions, List.find?_eq_none]
    constructor
    · intro h p hp
      have h2 := h p hp
      rw [← hperm p]
      simpa using h2
    · intro h p hp
      have h2 := (hperm p).mpr (h p hp)
      simp [h2]
  refine ⟨key, ?_⟩
  intro p hp hnot
  rw [Option.isSome_iff_ne_none]
  intro hnone
  exact hnot (key.mp hnone p hp)

/-- Witness to C3 at concrete inputs. -/
theorem ValidatePermissions_iff_declared_witness :
    (ValidatePermissions (NewAccountKeeper [("m", ["burner"])])
        ⟨⟨.ofModule "m", none, 0, 0⟩, "m", ["burner"]⟩ = none)
  ∧ (ValidatePermissions (NewAccountKeeper [("m", ["burner"])])
        ⟨⟨.ofModule "m", none, 0, 0⟩, "m", ["minter"]⟩).isSome = true :=
  ⟨(ValidatePermissions_iff_declared [("m", ["burner"])]
      ⟨⟨.ofModule "m", none, 0, 0⟩, "m", ["burner"]⟩).1.mpr (by decide),
   (ValidatePermissions_iff_declared [("m", ["burner"])]
      ⟨⟨.ofModule "m", none, 0, 0⟩, "m", ["minter"]⟩).2 "minter" (by decide) (by decide)⟩

/-- C4: `GetModuleAccount` is idempotent: a second call in the same scope
returns the same module account (same address and number) and the same store,
creating and persisting nothing. -/
theorem GetModuleAccount_idempotent (mp : List (String × List String))
    (s : Store) (name : String) (m : ModuleAccount) (p : List String) (s1 : Store)
    (h1 : GetModuleAccountAndPermissions (NewAccountKeeper mp) s name =
      some (some m, p, s1)) :
    GetModuleAccountAndPermissions (NewAccountKeeper mp) s1 name =
      some (some m, p, s1) ∧
    GetModuleAccount (NewAccountKeeper mp) s1 name = some (some m, s1) := by
  cases hlk : alistGet mp name with
  | none =>
    rw [gmap_unknown mp s name hlk] at h1
    exact absurd h1 (by simp)
  | some perms =>
    cases hget : GetAccount s (Address.ofModule name) with
    | none =>
      rw [gmap_decode_panic mp s name perms hlk hget] at h1
      exact absurd h1 (by simp)
    | some o =>
      cases o with
      | some acc =>
        cases acc with
        | base b =>
          rw [gmap_base_panic mp s name perms b hlk hget] at h1
          exact absurd h1 (by simp)
        | moduleAcc macc =>
          rw [gmap_found mp s name perms macc hlk hget] at h1
          simp only [Option.some.injEq, Prod.mk.injEq] at h1
          obtain ⟨hm, hp, hs⟩ := h1
          subst hm hp hs
          have h2 := gmap_found mp s name perms macc hlk hget
          exact ⟨h2, by simp [GetModuleAccount, h2]⟩
      | none =>
        cases hn : GetNextAccountNumber s with
        | none =>
          rw [gmap_alloc_panic mp s name perms hlk hget hn] at h1
          exact absurd h1 (by simp)
        | some r =>
          obtain ⟨n, sA⟩ := r
          rw [gmap_create mp s name perms n sA hlk hget hn] at h1
          simp only [Option.some.injEq, Prod.mk.injEq] at h1
          obtain ⟨hm, hp, hs⟩ := h1
          subst hm hp hs
          have hget2 : GetAccount
              (SetModuleAccount sA ⟨⟨Address.ofModule name, none, n, 0⟩, name, perms⟩)
              (Address.ofModule name) =
              some (some (.moduleAcc ⟨⟨Address.ofModule name, none, n, 0⟩, name, perms⟩)) := by
            have h3 := getAccount_setAccount_same sA
              (.moduleAcc ⟨⟨Address.ofModule name, none, n, 0⟩, name, perms⟩)
            simpa [SetModuleAccount, Account.address] using h3
          have h2 := gmap_found mp
            (SetModuleAccount sA ⟨⟨Address.ofModule name, none, n, 0⟩, name, perms⟩)
            name perms ⟨⟨Address.ofModule name, none, n, 0⟩, name, perms⟩ hlk hget2
          exact ⟨h2, by simp [GetModuleAccount, h2]⟩

/-- Witness to C4 at a concrete input. -/
theorem GetModuleAccount_idempotent_witness :
    GetModuleAccountAndPermissions (NewAccountKeeper [("m", ["burner"])])
        (SetModuleAccount ⟨some (encodeU64 1), [], []⟩
          ⟨⟨.ofModule "m", none, 0, 0⟩, "m", ["burner"]⟩) "m" =
      some (some ⟨⟨.ofModule "m", none, 0, 0⟩, "m", ["burner"]⟩, ["burner"],
        SetModuleAccount ⟨some (encodeU64 1), [], []⟩
          ⟨⟨.ofModule "m", none, 0, 0⟩, "m", ["burner"]⟩) ∧
    GetModuleAccount (NewAccountKeeper [("m", ["burner"])])
        (SetModuleAccount ⟨some (encodeU64 1), [], []⟩
          ⟨⟨.ofModule "m", none, 0, 0⟩, "m", ["burner"]⟩) "m" =
      some (some ⟨⟨.ofModule "m", none, 0, 0⟩, "m", ["burner"]⟩,
        SetModuleAccount ⟨some (encodeU64 1), [], []⟩
          ⟨⟨.ofModule "m", none, 0, 0⟩, "m", ["burner"]⟩) :=
  GetModuleAccount_idempotent [("m", ["burner"])] emptyStore "m"
    ⟨⟨.ofModule "m", none, 0, 0⟩, "m", ["burner"]⟩ ["burner"]
    (SetModuleAccount ⟨some (encodeU64 1), [], []⟩
      ⟨⟨.ofModule "m", none, 0, 0⟩, "m", ["burner"]⟩) (by decide)

/-- C5: decoding an encoded account record reproduces the record exactly, for
both supported variants. -/
theorem MarshalAccount_roundtrip :
    ∀ acc : Account, unmarshalAccount (marshalAccount acc) = some acc :=
  unmarshal_marshal_eq

/-- C6: `GetSequence` and `GetPubKey` return an unknown-address error when no
account is stored at the address, and the stored account's sequence and
public key (with no error) when one is. -/
theorem GetSequence_GetPubKey_spec (s : Store) (addr : Address) :
    (alistGet s.accounts addr = none →
        GetSequence s addr = some (.error (.unknownAddress addr)) ∧
        GetPubKey s addr = some (.error (.unknownAddress addr)))
  ∧ (∀ acc : Account, GetAccount s addr = some (some acc) →
        GetSequence s addr = some (.ok acc.getSequence) ∧
        GetPubKey s addr = some (.ok acc.getPubKey)) := by
  constructor
  · intro h
    have hga : GetAccount s addr = some none := by simp [GetAccount, h]
    exact ⟨by simp [GetSequence, hga], by simp [GetPubKey, hga]⟩
  · intro acc h
    exact ⟨by simp [GetSequence, h], by simp [GetPubKey, h]⟩

/-- Witness to C6 at concrete inputs. -/
theorem GetSequence_GetPubKey_spec_witness :
    (GetSequence emptyStore (.user 1) =
        some (.error (.unknownAddress (.user 1))) ∧
     GetPubKey emptyStore (.user 1) =
        some (.error (.unknownAddress (.user 1))))
  ∧ (GetSequence (SetAccount emptyStore (.base ⟨.user 1, some 42, 3, 9⟩)) (.user 1) =
        some (.ok 9) ∧
     GetPubKey (SetAccount emptyStore (.base ⟨.user 1, some 42, 3, 9⟩)) (.user 1) =
        some (.ok (some 42))) :=
  ⟨(GetSequence_GetPubKey_spec emptyStore (.user 1)).1 rfl,
   (GetSequence_GetPubKey_spec (SetAccount emptyStore (.base ⟨.user 1, some 42, 3, 9⟩))
      (.user 1)).2 (.base ⟨.user 1, some 42, 3, 9⟩) (by decide)⟩

/-- C7: decoding stored bytes never partially succeeds: a stored account
record whose bytes fail to decode makes the read panic, and a stored global
counter whose bytes fail to decode makes `GetNextAccountNumber` panic. -/
theorem decode_failure_fatal (s : Store) (addr : Address) (bz cz : List Nat)
    (ha : alistGet s.accounts addr = some bz) (hbz : unmarshalAccount bz = none)
    (hc : s.counter = some cz) (hcz : decodeU64 cz = none) :
    GetAccount s addr = none ∧ GetNextAccountNumber s = none := by
  constructor
  · simp [GetAccount, ha, hbz]
  · simp [GetNextAccountNumber, hc, hcz]

/-- Witness to C7 at a concrete corrupt store. -/
theorem decode_failure_fatal_witness :
    GetAccount (⟨some [], [(.user 0, [])], []⟩ : Store) (.user 0) = none ∧
    GetNextAccountNumber (⟨some [], [(.user 0, [])], []⟩ : Store) = none :=
  decode_failure_fatal ⟨some [], [(.user 0, [])], []⟩ (.user 0) [] []
    rfl rfl rfl rfl

/-- C8: permission-table lookup: a configured module name resolves to the
module's derived address and declared permissions; an unknown module name
yields no usable address (`nil`/empty). -/
theorem GetModuleAddress_lookup (mp : List (String × List String)) (name : String) :
    (∀ perms, alistGet mp name = some perms →
        GetModuleAddress (NewAccountKeeper mp) name = some (Address.ofModule name) ∧
        GetModuleAddressAndPermissions (NewAccountKeeper mp) name =
          (some (Address.ofModule name), perms))
  ∧ (alistGet mp name = none →
        GetModuleAddress (NewAccountKeeper mp) name = none ∧
        GetModuleAddressAndPermissions (NewAccountKeeper mp) name = (none, [])) := by
  constructor
  · intro perms h
    constructor <;>
      simp [GetModuleAddress, GetModuleAddressAndPermissions, alistGet_mapped, h,
        NewPermissionsForAddress]
  · intro h
    constructor <;>
      simp [GetModuleAddress, GetModuleAddressAndPermissions, alistGet_mapped, h]

/-- Witness to C8 at concrete inputs. -/
theorem GetModuleAddress_lookup_witness :
    (GetModuleAddress (NewAccountKeeper [("m", ["burner"])]) "m" =
        some (Address.ofModule "m") ∧
     GetModuleAddressAndPermissions (NewAccountKeeper [("m", ["burner"])]) "m" =
        (some (Address.ofModule "m"), ["burner"]))
  ∧ (GetModuleAddress (NewAccountKeeper [("m", ["burner"])]) "x" = none ∧
     GetModuleAddressAndPermissions (NewAccountKeeper [("m", ["burner"])]) "x" =
        (none, [])) :=
  ⟨(GetModuleAddress_lookup [("m", ["burner"])] "m").1 ["burner"] rfl,
   (GetModuleAddress_lookup [("m", ["burner"])] "x").2 rfl⟩

/-- C9: for a module name not in the permission table, the module-account
operations return `nil` (with an empty permission list) without panicking and
with the store unchanged: nothing is created, allocated or written. -/
theorem unknown_module_no_creation (mp : List (String × List String)) (s : Store)
    (name : String) (h : alistGet mp name = none) :
    GetModuleAccountAndPermissions (NewAccountKeeper mp) s name = some (none, [], s) ∧
    GetModuleAccount (NewAccountKeeper mp) s name = some (none, s) := by
  have h1 := gmap_unknown mp s name h
  exact ⟨h1, by simp [GetModuleAccount, h1]⟩

/-- Witness to C9 at a concrete input. -/
theorem unknown_module_no_creation_witness :
    GetModuleAccountAndPermissions (NewAccountKeeper [("m", ["burner"])])
        emptyStore "x" = some (none, [], emptyStore) ∧
    GetModuleAccount (NewAccountKeeper [("m", ["burner"])]) emptyStore "x" =
        some (none, emptyStore) :=
  unknown_module_no_creation [("m", ["burner"])] emptyStore "x" rfl

end CosmosAuth

namespace CosmosGroup

/-!
## Group module Pulsar conversions (`x/group/orm.go`)

`time.Time` is modelled as seconds/nanoseconds plus a UTC marker (Go `==`
on `time.Time` distinguishes locations; `Timestamp.AsTime` always returns a
UTC value).  `timestamppb.Timestamp` is modelled as seconds and nanoseconds;
`AsTime` normalizes nanoseconds into `[0, 1e9)` the way `time.Unix` does
(floor division for a positive divisor).
-/

/-- Go `time.Time`, reduced to its wall clock (Unix seconds, nanosecond
within the second) and whether its location is UTC. -/
structure GoTime where
  sec : Int
  nsec : Nat
  isUTC : Bool
deriving DecidableEq, Repr

/-- `timestamppb.Timestamp`. -/
structure Timestamp where
  seconds : Int
  nanos : Int
deriving DecidableEq, Repr

/-- `timestamppb.New`: seconds from `t.Unix()`, nanos from `t.Nanosecond()`. -/
def GoTime.toTimestamp (t : GoTime) : Timestamp :=
  ⟨t.sec, (t.nsec : Int)⟩

/-- `Timestamp.AsTime`: `time.Unix(seconds, nanos).UTC()`. -/
def Timestamp.asTime (ts : Timestamp) : GoTime :=
  ⟨ts.seconds + Int.ediv ts.nanos 1000000000,
   (Int.emod ts.nanos 1000000000).toNat, true⟩

/-- A `GoTime` representable as a protobuf timestamp: seconds within the
protobuf-valid range and a normalized nanosecond field. -/
def RepresentableTimestamp (t : GoTime) : Prop :=
  -62135596800 ≤ t.sec ∧ t.sec ≤ 253402300799 ∧ t.nsec < 1000000000

instance (t : GoTime) : Decidable (RepresentableTimestamp t) := by
  unfold RepresentableTimestamp
  infer_instance

/-- `group.GroupInfo` (gogoproto side). -/
structure GroupInfo where
  id : Nat
  admin : String
  version : Nat
  totalWeight : String
  metadata : String
  createdAt : GoTime
deriving DecidableEq, Repr

/-- `groupv1.GroupInfo` (Pulsar side). -/
structure PulsarGroupInfo where
  id : Nat
  admin : String
  version : Nat
  totalWeight : String
  metadata : String
  createdAt : Timestamp
deriving DecidableEq, Repr

/-- `group.Vote` (gogoproto side); the vote option enum is its integer
value. -/
structure Vote where
  proposalId : Nat
  voter : String
  option : Int
  metadata : String
  submitTime : GoTime
deriving DecidableEq, Repr

/-- `groupv1.Vote` (Pulsar side). -/
structure PulsarVote where
  proposalId : Nat
  voter : String
  option : Int
  metadata : String
  submitTime : Timestamp
deriving DecidableEq, Repr

def GroupInfoToPulsar (groupInfo : GroupInfo) : PulsarGroupInfo :=
  ⟨groupInfo.id, groupInfo.admin, groupInfo.version, groupInfo.totalWeight,
   groupInfo.metadata, groupInfo.createdAt.toTimestamp⟩

def GroupInfoFromPulsar (groupInfo : PulsarGroupInfo) : GroupInfo :=
  ⟨groupInfo.id, groupInfo.admin, groupInfo.version, groupInfo.totalWeight,
   groupInfo.metadata, groupInfo.createdAt.asTime⟩

def VoteToPulsar (vote : Vote) : PulsarVote :=
  ⟨vote.proposalId, vote.voter, vote.option, vote.metadata,
   vote.submitTime.toTimestamp⟩

def VoteFromPulsar (vote : PulsarVote) : Vote :=
  ⟨vote.proposalId, vote.voter, vote.option, vote.metadata,
   vote.submitTime.asTime⟩

theorem asTime_toTimestamp (t : GoTime) (hutc : t.isUTC = true)
    (hns : t.nsec < 1000000000) : t.toTimestamp.asTime = t := by
  obtain ⟨sec, nsec, utc⟩ := t
  simp only at hutc hns
  subst hutc
  simp only [GoTime.toTimestamp, Timestamp.asTime, GoTime.mk.injEq]
  have hdiv : Int.ediv (nsec : Int) 1000000000 = 0 := by
    apply Int.ediv_eq_zero_of_lt
    · exact_mod_cast Nat.zero_le nsec
    · exact_mod_cast hns
  have hmod : Int.emod (nsec : Int) 1000000000 = (nsec : Int) := by
    apply Int.emod_eq_of_lt
    · exact_mod_cast Nat.zero_le nsec
    · exact_mod_cast hns
  refine ⟨by rw [hdiv]; ring, by rw [hmod]; exact Int.toNat_natCast nsec, trivial⟩

/-- C10: the group-module Pulsar conversions are mutually inverse on valid
data: converting a `GroupInfo` (resp. `Vote`) to its Pulsar form and back
reproduces it exactly, whenever its `CreatedAt` (resp. `SubmitTime`) is a UTC
time representable as a protobuf timestamp. -/
theorem group_pulsar_roundtrip (g : GroupInfo) (v : Vote)
    (hg1 : g.createdAt.isUTC = true) (hg2 : RepresentableTimestamp g.createdAt)
    (hv1 : v.submitTime.isUTC = true) (hv2 : RepresentableTimestamp v.submitTime) :
    GroupInfoFromPulsar (GroupInfoToPulsar g) = g ∧
    VoteFromPulsar (VoteToPulsar v) = v := by
  constructor
  · simp only [GroupInfoFromPulsar, GroupInfoToPulsar,
      asTime_toTimestamp g.createdAt hg1 hg2.2.2]
  · simp only [VoteFromPulsar, VoteToPulsar,
      asTime_toTimestamp v.submitTime hv1 hv2.2.2]

/-- Witness to C10 at concrete inputs. -/
theorem group_pulsar_roundtrip_witness :
    GroupInfoFromPulsar (GroupInfoToPulsar
      ⟨1, "admin", 2, "10", "meta", ⟨1700000000, 5, true⟩⟩) =
      ⟨1, "admin", 2, "10", "meta", ⟨1700000000, 5, true⟩⟩ ∧
    VoteFromPulsar (VoteToPulsar ⟨4, "voter", 1, "md", ⟨1700000001, 7, true⟩⟩) =
      ⟨4, "voter", 1, "md", ⟨1700000001, 7, true⟩⟩ :=
  group_pulsar_roundtrip
    ⟨1, "admin", 2, "10", "meta", ⟨1700000000, 5, true⟩⟩
    ⟨4, "voter", 1, "md", ⟨1700000001, 7, true⟩⟩
    rfl (by decide) rfl (by decide)

end CosmosGroup
